import Mathlib

/-!
Verification of the temporal-parameter subsystem of the sourcebot repository:
the date-expression resolver (`toDbDate`), the range validator
(`validateDateRange`), the repository range filter, and the query-parameter coercion of the
HTTP route. Timestamps are modelled as integers counting
milliseconds since the Unix epoch, matching the JavaScript `Date` value
the code manipulates.
-/

namespace Sourcebot

/-- Milliseconds in one day, the unit of all calendar arithmetic here. -/
def msPerDay : Int := 86400000

/-- Gregorian leap-year test. -/
def isLeap (y : Int) : Bool := y % 4 = 0 && (y % 100 != 0 || y % 400 = 0)

/-- Number of days in month `m` (1-12) of year `y`; 0 for an invalid month. -/
def daysInMonth (y : Int) (m : Nat) : Nat :=
  match m with
  | 1 => 31 | 2 => if isLeap y then 29 else 28 | 3 => 31
  | 4 => 30 | 5 => 31 | 6 => 30 | 7 => 31 | 8 => 31
  | 9 => 30 | 10 => 31 | 11 => 30 | 12 => 31
  | _ => 0

/-- Days from the Unix epoch (1970-01-01) to the civil date `y-m-d`,
using the standard era-based conversion. -/
def daysFromCivil (y : Int) (m d : Nat) : Int :=
  let yAdj : Int := if m ≤ 2 then y - 1 else y
  let era : Int := (if 0 ≤ yAdj then yAdj else yAdj - 399) / 400
  let yoe : Int := yAdj - era * 400
  let mp : Int := ((m : Int) + 9) % 12
  let doy : Int := (153 * mp + 2) / 5 + (d : Int) - 1
  let doe : Int := yoe * 365 + yoe / 4 - yoe / 100 + doy
  era * 146097 + doe - 719468

/-- Decimal digit value of a character, if it is one. -/
def digitVal (c : Char) : Option Nat :=
  if c.isDigit then some (c.toNat - 48) else none

/-- Modelled from the spec: the absolute-date arm of the resolver in the
missing `dateUtils.ts`. Parses an ISO-8601 `YYYY-MM-DD` calendar date,
rejecting out-of-range months and days, and yields its epoch-day number. -/
def parseAbsoluteDays (s : String) : Option Int :=
  match s.toList with
  | [y1, y2, y3, y4, '-', m1, m2, '-', d1, d2] =>
    match digitVal y1, digitVal y2, digitVal y3, digitVal y4,
          digitVal m1, digitVal m2, digitVal d1, digitVal d2 with
    | some a, some b, some c, some e, some f, some g, some h, some i =>
      let y : Int := (a * 1000 + b * 100 + c * 10 + e : Nat)
      let m : Nat := f * 10 + g
      let d : Nat := h * 10 + i
      if 1 ≤ m ∧ m ≤ 12 ∧ 1 ≤ d ∧ d ≤ daysInMonth y m then
        some (daysFromCivil y m d)
      else none
    | _, _, _, _, _, _, _, _ => none
  | _ => none

/-- Modelled from the spec: a valid absolute date resolves to the timestamp
at midnight UTC of that calendar date. -/
def parseAbsolute (s : String) : Option Int :=
  (parseAbsoluteDays s).map (fun k => msPerDay * k)

/-- Parse a non-empty all-digit string as a natural number. -/
def parseNatStr (s : String) : Option Nat :=
  if s.isEmpty then none
  else s.toList.foldl
    (fun acc c => acc.bind (fun n => (digitVal c).map (fun d => n * 10 + d)))
    (some 0)

/-- Split a character list at spaces, with the semantics of splitting a
string on the separator " " (the empty list yields one empty word). -/
def splitOnSpace (cs : List Char) : List (List Char) :=
  match cs with
  | [] => [[]]
  | ' ' :: rest => [] :: splitOnSpace rest
  | c :: rest =>
    match splitOnSpace rest with
    | [] => [[c]]
    | w :: ws => (c :: w) :: ws

/-- Modelled from the spec: the duration in milliseconds named by a unit
word of a relative phrase (`N days/weeks/months ago`). -/
def unitMs (u : String) : Option Int :=
  if u = "day" ∨ u = "days" then some msPerDay
  else if u = "week" ∨ u = "weeks" then some (7 * msPerDay)
  else if u = "month" ∨ u = "months" then some (30 * msPerDay)
  else none

/-- Modelled from the spec: the relative-phrase arm of the resolver in the
missing `dateUtils.ts`. A recognized phrase ("yesterday", "last week",
"N days/weeks/months ago") names the duration to subtract from now. -/
def relDuration (s : String) : Option Int :=
  if s = "yesterday" then some msPerDay
  else if s = "last week" then some (7 * msPerDay)
  else if s = "last month" then some (30 * msPerDay)
  else
    match splitOnSpace s.toList with
    | [n, u, ['a', 'g', 'o']] =>
      match parseNatStr (String.mk n), unitMs (String.mk u) with
      | some k, some m => some ((k : Int) * m)
      | _, _ => none
    | _ => none

/-- Failure taxonomy of the resolver. -/
inductive DateError where
  | invalidExpression : String → DateError
deriving DecidableEq, Repr

/-- Modelled from the spec: `toDbDate` of the missing `dateUtils.ts`, the
resolver `resolve(expr) -> timestamp | absent`, failing with
`InvalidExpression` on an unparseable string. An absent or empty
expression resolves to absence; otherwise the absolute parse is tried
first, then the relative parse against the ambient instant `now`. -/
def toDbDate (expr : Option String) (now : Int) : Except DateError (Option Int) :=
  match expr with
  | none => .ok none
  | some s =>
    if s = "" then .ok none
    else
      match parseAbsolute s with
      | some t => .ok (some t)
      | none =>
        match relDuration s with
        | some d => .ok (some (now - d))
        | none => .error (.invalidExpression s)

/-- Modelled from the spec: `validateDateRange` of the missing
`dateUtils.ts`. Resolves both expressions, propagating resolver failures
as validation errors naming the offending field; with both bounds
resolved, requires start strictly before end; absence on either side
leaves the range open and valid. -/
def validateDateRange (sinceExpr untilExpr : Option String) (now : Int) : Option String :=
  match toDbDate sinceExpr now with
  | .error (.invalidExpression s) => some ("invalid since date expression: " ++ s)
  | .ok sinceResolved =>
    match toDbDate untilExpr now with
    | .error (.invalidExpression s) => some ("invalid until date expression: " ++ s)
    | .ok untilResolved =>
      match sinceResolved, untilResolved with
      | some a, some b =>
        if a < b then none
        else some "the since date must be before the until date"
      | _, _ => none

/-- A timestamped record as it appears in the repository-filtering tests:
an id, a name, and an optional `indexedAt` timestamp. -/
structure Repo where
  id : Nat
  name : String
  indexedAt : Option Int
deriving DecidableEq, Repr

/-- The filter predicate of the repository filtering logic, translated
from the source: a repo with no `indexedAt` is dropped; a present `since`
bound drops repos strictly before it; a present `until` bound drops repos
strictly after it. -/
def repoMatches (sinceD untilD : Option Int) (r : Repo) : Bool :=
  match r.indexedAt with
  | none => false
  | some t =>
    if sinceD.any (fun s => t < s) then false
    else if untilD.any (fun u => u < t) then false
    else true

/-- The repository filtering logic from the source: keep exactly the repos
satisfying `repoMatches`. -/
def filterByRange (repos : List Repo) (sinceD untilD : Option Int) : List Repo :=
  repos.filter (repoMatches sinceD untilD)

/-- The range-membership predicate stated in the words of the spec: the timestamp is
present, is `>=` a present start bound, and is `<=` a present end bound,
both bounds inclusive. -/
def specMatches (sinceD untilD : Option Int) (r : Repo) : Bool :=
  match r.indexedAt with
  | none => false
  | some t =>
    sinceD.all (fun s => decide (s ≤ t)) && untilD.all (fun u => decide (t ≤ u))

/-- Lookup of a query parameter, as `searchParams.get`: the value of the
first pair with the given key, or absence. -/
def searchParamsGet (params : List (String × String)) (key : String) : Option String :=
  (params.find? (fun p => p.fst == key)).map (fun p => p.snd)

/-- The `|| undefined` coercion from the repos route: a missing value stays
missing and an empty string (falsy in JavaScript) becomes missing. -/
def orUndefined (v : Option String) : Option String :=
  match v with
  | none => none
  | some s => if s = "" then none else some s

/-- The temporal query parameters the repos route extracts and passes to
`getRepos`, translated from the route handler. -/
def routeTemporalParams (params : List (String × String)) : Option String × Option String :=
  (orUndefined (searchParamsGet params "activeAfter"),
   orUndefined (searchParamsGet params "activeBefore"))

/-- Substring containment on strings, used to state what an error message
must textually contain. -/
def containsSub (hay needle : String) : Bool :=
  decide (needle.toList <:+: hay.toList)

/-- The ambient instant 2024-06-15T12:00:00Z fixed by the tests, in epoch
milliseconds. -/
def fixedNow : Int := 1718452800000

/-- One resolver call per element of a call sequence; used to state that a
output of a call does not depend on the calls before it. -/
def runCalls (calls : List (Option String × Int)) : List (Except DateError (Option Int)) :=
  calls.map (fun c => toDbDate c.fst c.snd)

/-! Helper lemmas shared by the claim theorems. -/

theorem relDuration_empty : relDuration "" = none := by decide

theorem parseAbsoluteDays_empty : parseAbsoluteDays "" = none := by decide

theorem repoMatches_eq_specMatches (sD uD : Option Int) (r : Repo) :
    repoMatches sD uD r = specMatches sD uD r := by
  rcases r with ⟨i, nm, _ | t⟩
  · rfl
  · rcases sD with _ | s <;> rcases uD with _ | u <;>
      simp only [repoMatches, specMatches, Option.any, Option.all] <;>
      split_ifs <;> simp_all

theorem repoMatches_timestamped (sD uD : Option Int) (r : Repo)
    (h : repoMatches sD uD r = true) : r.indexedAt.isSome := by
  rcases r with ⟨i, nm, _ | t⟩
  · simp [repoMatches] at h
  · rfl

theorem orUndefined_ne_empty (v : Option String) : orUndefined v ≠ some "" := by
  rcases v with _ | s
  · simp [orUndefined]
  · by_cases h : s = "" <;> simp [orUndefined, h]

theorem orUndefined_absorbs (v : Option String) (h : v = none ∨ v = some "") :
    orUndefined v = none := by
  rcases h with rfl | rfl <;> rfl

/-- C1: whenever both expressions resolve to timestamps with start >= end,
`validateDateRange` returns a non-null error whose text contains the
substrings "since", "until" and "before". -/
theorem validateDateRange_inverted_error (sE uE : Option String) (now a b : Int)
    (hs : toDbDate sE now = .ok (some a))
    (hu : toDbDate uE now = .ok (some b))
    (hab : b ≤ a) :
    ∃ msg, validateDateRange sE uE now = some msg ∧
      containsSub msg "since" = true ∧
      containsSub msg "until" = true ∧
      containsSub msg "before" = true := by
  refine ⟨"the since date must be before the until date", ?_, by decide, by decide, by decide⟩
  simp [validateDateRange, hs, hu, if_neg (Int.not_lt.mpr hab)]

/-- C1 witness at the inverted concrete range from the tests. -/
theorem validateDateRange_inverted_error_witness :
    ∃ msg, validateDateRange (some "2024-12-31") (some "2024-01-01") 0 = some msg ∧
      containsSub msg "since" = true ∧
      containsSub msg "until" = true ∧
      containsSub msg "before" = true :=
  validateDateRange_inverted_error (some "2024-12-31") (some "2024-01-01") 0
    1735603200000 1704067200000 rfl rfl (by decide)

/-- C2: a recognized relative phrase naming duration `d` resolves to the
ambient instant minus `d`, preserving its time of day; in particular, at
the fixed ambient instant 2024-06-15T12:00:00Z, "30 days ago" resolves to
2024-05-16T12:00:00Z, "yesterday" to 2024-06-14T12:00:00Z and "last week"
to 2024-06-08T12:00:00Z. -/
theorem toDbDate_relative_subtracts :
    (∀ (s : String) (d now : Int), parseAbsolute s = none → relDuration s = some d →
        toDbDate (some s) now = .ok (some (now - d))) ∧
    toDbDate (some "30 days ago") fixedNow = .ok (some 1715860800000) ∧
    toDbDate (some "yesterday") fixedNow = .ok (some 1718366400000) ∧
    toDbDate (some "last week") fixedNow = .ok (some 1717848000000) := by
  refine ⟨?_, rfl, rfl, rfl⟩
  intro s d now hA hR
  have hne : s ≠ "" := by
    intro h
    rw [h, relDuration_empty] at hR
    exact Option.noConfusion hR
  simp [toDbDate, if_neg hne, hA, hR]

/-- C2 witness: the general relative rule applied to "yesterday" at
ambient instant 0. -/
theorem toDbDate_relative_subtracts_witness :
    toDbDate (some "yesterday") 0 = .ok (some (0 - 86400000)) :=
  toDbDate_relative_subtracts.1 "yesterday" 86400000 0 rfl rfl

/-- C4: a valid absolute date string resolves, independently of the
ambient instant, to the timestamp at midnight UTC of that calendar date (a
whole multiple of a day); in particular "2024-01-01" resolves to
2024-01-01T00:00:00Z. -/
theorem toDbDate_absolute_midnight :
    (∀ (s : String) (k now : Int), parseAbsoluteDays s = some k →
        toDbDate (some s) now = .ok (some (msPerDay * k)) ∧
        (msPerDay * k) % msPerDay = 0) ∧
    ∀ now : Int, toDbDate (some "2024-01-01") now = .ok (some 1704067200000) := by
  refine ⟨?_, fun now => rfl⟩
  intro s k now h
  have hne : s ≠ "" := by
    intro he
    rw [he, parseAbsoluteDays_empty] at h
    exact Option.noConfusion h
  refine ⟨?_, Int.mul_emod_right msPerDay k⟩
  simp [toDbDate, if_neg hne, parseAbsolute, h]

/-- C4 witness at "2024-01-01" and ambient instant 0. -/
theorem toDbDate_absolute_midnight_witness :
    toDbDate (some "2024-01-01") 0 = .ok (some (msPerDay * 19723)) ∧
    (msPerDay * 19723) % msPerDay = 0 :=
  toDbDate_absolute_midnight.1 "2024-01-01" 19723 0 rfl

/-- C5: an absent expression and the empty string both resolve to absence
and not to an error. -/
theorem toDbDate_absence (now : Int) :
    toDbDate none now = .ok none ∧ toDbDate (some "") now = .ok none :=
  ⟨rfl, rfl⟩

/-- C3: the repository filter returns exactly the records matching the
spec predicate (timestamp present, within the inclusive bounds), as a
stable sub-sequence of the input, and never an untimestamped record. -/
theorem filterByRange_spec (repos : List Repo) (sD uD : Option Int) :
    filterByRange repos sD uD = repos.filter (specMatches sD uD) ∧
    List.Sublist (filterByRange repos sD uD) repos ∧
    (filterByRange repos sD uD).all (fun r => r.indexedAt.isSome) = true := by
  refine ⟨?_, List.filter_sublist repos, ?_⟩
  · exact List.filter_congr (fun r _ => repoMatches_eq_specMatches sD uD r)
  · rw [List.all_eq_true]
    intro r hr
    exact repoMatches_timestamped sD uD r (List.of_mem_filter hr)

/-- C6: a non-empty string that is neither a valid absolute date nor a
recognized relative phrase makes the resolver fail with
`InvalidExpression`; it is never mapped to absence or a default. -/
theorem toDbDate_unparseable_error (s : String) (now : Int)
    (hne : s ≠ "") (hA : parseAbsolute s = none) (hR : relDuration s = none) :
    toDbDate (some s) now = .error (.invalidExpression s) := by
  simp [toDbDate, if_neg hne, hA, hR]

/-- C6 witness at the unparseable string "garbage". -/
theorem toDbDate_unparseable_error_witness :
    toDbDate (some "garbage") 0 = .error (.invalidExpression "garbage") :=
  toDbDate_unparseable_error "garbage" 0 (by decide) rfl rfl

/-- C7: when both expressions resolve to the same timestamp, the validator
rejects the range, because a well-formed range needs start strictly
before end. -/
theorem validateDateRange_equal_bounds (sE uE : Option String) (now a : Int)
    (hs : toDbDate sE now = .ok (some a))
    (hu : toDbDate uE now = .ok (some a)) :
    validateDateRange sE uE now ≠ none := by
  simp [validateDateRange, hs, hu]

/-- C7 witness with both bounds "2024-01-01". -/
theorem validateDateRange_equal_bounds_witness :
    validateDateRange (some "2024-01-01") (some "2024-01-01") 0 ≠ none :=
  validateDateRange_equal_bounds (some "2024-01-01") (some "2024-01-01") 0
    1704067200000 rfl rfl

/-- C8 counterexample: the since side resolves to absent, yet the
validator returns a non-null error because the until side fails to parse
— so "at least one side resolves to absent" alone does not make the
result null. -/
theorem validateDateRange_open_cex :
    toDbDate none 0 = .ok none ∧
    validateDateRange none (some "garbage") 0 ≠ none :=
  ⟨rfl, by decide⟩

/-- C8 amended: when at least one side resolves to absent and neither
side fails with `InvalidExpression`, the validator returns null: an
open-ended range is valid. -/
theorem validateDateRange_open_valid (sE uE : Option String) (now : Int)
    (hopen : toDbDate sE now = .ok none ∨ toDbDate uE now = .ok none)
    (hsOk : ∀ e, toDbDate sE now ≠ .error e)
    (huOk : ∀ e, toDbDate uE now ≠ .error e) :
    validateDateRange sE uE now = none := by
  unfold validateDateRange
  cases h1 : toDbDate sE now with
  | error e => exact absurd h1 (hsOk e)
  | ok sv =>
    cases h2 : toDbDate uE now with
    | error e => exact absurd h2 (huOk e)
    | ok uv =>
      rcases hopen with h | h
      · rw [h1] at h
        injection h with h
        subst h
        cases uv <;> rfl
      · rw [h2] at h
        injection h with h
        subst h
        cases sv <;> rfl

/-- C8 amended witness: an absent since with a valid until is accepted. -/
theorem validateDateRange_open_valid_witness :
    validateDateRange none (some "2024-12-31") 0 = none :=
  validateDateRange_open_valid none (some "2024-12-31") 0 (Or.inl rfl)
    (fun e h => by simp [toDbDate] at h)
    (fun e h => by
      rw [show toDbDate (some "2024-12-31") 0 = Except.ok (some 1735603200000) from rfl] at h
      exact Except.noConfusion h)

/-- C9: the resolver is deterministic in its expression and ambient
instant: the last output of a call sequence ending in a given call is the
resolver value of that call alone, whatever calls came before, so two
sequences ending in the same call agree. -/
theorem toDbDate_history_independent (pre1 pre2 : List (Option String × Int))
    (e : Option String) (t : Int) :
    (runCalls (pre1 ++ [(e, t)])).getLast? = some (toDbDate e t) ∧
    (runCalls (pre1 ++ [(e, t)])).getLast? = (runCalls (pre2 ++ [(e, t)])).getLast? := by
  have h : ∀ pre : List (Option String × Int),
      (runCalls (pre ++ [(e, t)])).getLast? = some (toDbDate e t) := by
    intro pre
    simp [runCalls]
  exact ⟨h pre1, (h pre1).trans (h pre2).symm⟩

/-- C10: the repos route passes a missing or empty `activeAfter` or
`activeBefore` query parameter to `getRepos` as absent, and never passes a
present-but-empty string. -/
theorem route_coerces_empty_params (params : List (String × String)) :
    ((searchParamsGet params "activeAfter" = none ∨
        searchParamsGet params "activeAfter" = some "") →
      (routeTemporalParams params).fst = none) ∧
    ((searchParamsGet params "activeBefore" = none ∨
        searchParamsGet params "activeBefore" = some "") →
      (routeTemporalParams params).snd = none) ∧
    (routeTemporalParams params).fst ≠ some "" ∧
    (routeTemporalParams params).snd ≠ some "" :=
  ⟨fun h => orUndefined_absorbs _ h,
   fun h => orUndefined_absorbs _ h,
   orUndefined_ne_empty _,
   orUndefined_ne_empty _⟩

/-- C10 witness: a request carrying `activeAfter=` (empty value) reaches
`getRepos` with an absent activeAfter. -/
theorem route_coerces_empty_params_witness :
    (routeTemporalParams [("activeAfter", "")]).fst = none :=
  (route_coerces_empty_params [("activeAfter", "")]).1 (Or.inr rfl)

end Sourcebot
